import Mathlib

/-!
# Verification of the `bcls` aggregated-instance listing core

Shallow embedding of the Rust sources:

* `src/compute/records.rs` — `Instance` and `Instance::try_from` (the record decoder);
* `src/compute.rs` — `InstancesPageIterator::next`, `object_to_instance_list`,
  `Compute::list_all_instances` (the paginated aggregated-listing traversal);
* `src/compute/compute.rs` — `Compute::list_instances` (the name-filtered variant).

JSON values are modelled by the inductive `Json` below (serde_json `Value`; numbers
are collapsed to `Int` — no claim depends on numeric payloads, only on a value
*not* being a string/array/object).  serde_json `Map` and Rust `HashMap` are both
modelled as association lists with first-match lookup; wire-format JSON objects
have unique keys, so the difference is unobservable for the properties below.
The HTTP client (`HttpTrait::get`, with the bearer token already applied) is
modelled as a function `fetch : String → Except String Json` from request URL to
response.  Rust panics (`expect` / `unwrap`) are modelled as distinguished
outcomes, kept apart from `Err` return values.
-/

namespace Bcls

/-- Model of serde_json `Value`. -/
inductive Json where
  | null
  | bool (b : Bool)
  | num (n : Int)
  | str (s : String)
  | arr (elems : List Json)
  | obj (fields : List (String × Json))

/-- Model of `Value::as_str`. -/
def Json.asStr : Json → Option String
  | .str s => some s
  | _ => none

/-- Model of `Value::as_array`. -/
def Json.asArr : Json → Option (List Json)
  | .arr xs => some xs
  | _ => none

/-- Model of `Value::as_object`. -/
def Json.asObj : Json → Option (List (String × Json))
  | .obj fs => some fs
  | _ => none

/-- Model of `Value::get(key)` — `None` when the value is not an object or the key is absent. -/
def Json.get (j : Json) (key : String) : Option Json :=
  match j with
  | .obj fs => List.lookup key fs
  | _ => none

/-- Model of `value[key]` (the `Index` impl) — `Value::Null` when absent or not an object. -/
def Json.index (j : Json) (key : String) : Json :=
  (j.get key).getD .null

/-- Rust `str::split(c)` on an exploded character list; the accumulator holds the
current (reversed) segment.  Always returns at least one segment, like Rust. -/
def splitCharList (c : Char) : List Char → List Char → List (List Char)
  | [], acc => [acc.reverse]
  | x :: xs, acc =>
    if x = c then acc.reverse :: splitCharList c xs []
    else splitCharList c xs (x :: acc)

/-- Rust `str::split(c).collect()`. -/
def splitChar (c : Char) (s : String) : List String :=
  (splitCharList c s.toList []).map (fun l => String.mk l)

/-- Rust `Vec<&str>::join(sep)`. -/
def joinSep (sep : String) : List String → String
  | [] => ""
  | [s] => s
  | s :: rest => s ++ sep ++ joinSep sep rest

theorem splitCharList_ne_nil (c : Char) (l acc : List Char) :
    splitCharList c l acc ≠ [] := by
  induction l generalizing acc with
  | nil => simp [splitCharList]
  | cons x xs ih =>
    simp only [splitCharList]
    split
    · simp
    · exact ih _

theorem splitChar_ne_nil (c : Char) (s : String) : splitChar c s ≠ [] := by
  simp [splitChar, splitCharList_ne_nil]

theorem splitChar_getLast?_isSome (c : Char) (s : String) :
    ∃ z, (splitChar c s).getLast? = some z := by
  rcases h : (splitChar c s).getLast? with _ | z
  · exact absurd (List.getLast?_eq_none_iff.mp h) (splitChar_ne_nil c s)
  · exact ⟨z, rfl⟩

/-- From `records.rs`: the `Instance` struct.  `labels` (a Rust `HashMap`) is an
association list, see the header comment. -/
structure Instance where
  name : String
  ip : String
  zone : String
  machine_type : String
  cpu_platform : String
  status : String
  labels : Option (List (String × String))
  region : String
  cell : Option String

/-- Model of `json.get(k).and_then(Value::as_str)` — the extraction pattern used for every
required string field of `Instance::try_from`. -/
def getStr (j : Json) (key : String) : Option String :=
  (j.get key).bind Json.asStr

/-- The `ip` extraction chain of `Instance::try_from`:
`json.get("networkInterfaces").and_then(as_array).and_then(first)
     .and_then(get "networkIP").and_then(as_str)`. -/
def ipOf (j : Json) : Option String :=
  ((((j.get "networkInterfaces").bind Json.asArr).bind List.head?).bind
      (fun iface => iface.get "networkIP")).bind Json.asStr

/-- The labels coercion of `Instance::try_from`: every entry becomes a string
pair, a non-string value turning into `""` (`v.as_str().unwrap_or("")`). -/
def coerceLabels (o : List (String × Json)) : List (String × String) :=
  o.map (fun kv => (kv.1, (Json.asStr kv.2).getD ""))

/-- The optional labels extraction of `Instance::try_from`:
`json.get("labels").and_then(as_object).map(coerce)`. -/
def labelsOf (j : Json) : Option (List (String × String)) :=
  ((j.get "labels").bind Json.asObj).map coerceLabels

/-- From `records.rs`: `impl TryFrom<JsonValue> for Instance` — `Instance::try_from`.
The `?`-chains of the source are rendered as nested matches in source order. -/
def Instance.try_from (json : Json) : Except String Instance :=
  match getStr json "name" with
  | none => .error "Missing or invalid 'name' field"
  | some name =>
    match ipOf json with
    | none => .error "Missing or invalid 'networkInterfaces[0].networkIP' field"
    | some ip =>
      match getStr json "zone" with
      | none => .error "Missing or invalid 'zone' field"
      | some zoneUrl =>
        match (splitChar '/' zoneUrl).getLast? with
        | none => .error "Invalid 'zone' format"
        | some zone =>
          match getStr json "machineType" with
          | none => .error "Missing or invalid 'machineType' field"
          | some mtUrl =>
            match (splitChar '/' mtUrl).getLast? with
            | none => .error "Invalid 'machineType' format"
            | some machine_type =>
              match getStr json "cpuPlatform" with
              | none => .error "Missing or invalid 'cpuPlatform' field"
              | some cpu_platform =>
                match getStr json "status" with
                | none => .error "Missing or invalid 'status' field"
                | some status =>
                  let labels := labelsOf json
                  let cell := labels.bind (fun l => List.lookup "cell" l)
                  let region := joinSep "-" ((splitChar '-' zone).take 2)
                  .ok { name, ip, zone, machine_type, cpu_platform, status,
                        labels, region, cell }

/-! ## The paginated aggregated-listing traversal (`src/compute.rs`) -/

/-- The URL match at the top of `InstancesPageIterator::next` (the two `format!`
arms, lines 123–132 of `compute.rs`). -/
def mkUrl (project : String) (page_token : Option String) : String :=
  match page_token with
  | some token =>
      "https://compute.googleapis.com/compute/v1/projects/" ++ project ++
        "/aggregated/instances?pageToken=" ++ token
  | none =>
      "https://compute.googleapis.com/compute/v1/projects/" ++ project ++
        "/aggregated/instances"

/-- From `compute.rs`: `object_to_instance_list` — the raw objects of one zone:
`object.get("instances").and_then(as_array).unwrap_or(&vec![])`. -/
def zoneInstances (o : List (String × Json)) : List Json :=
  ((List.lookup "instances" o).bind Json.asArr).getD []

/-- From `compute.rs`: `object_to_instance_list` — each raw object run through
`Instance::try_from`. -/
def object_to_instance_list (o : List (String × Json)) :
    List (Except String Instance) :=
  (zoneInstances o).map Instance.try_from

/-- The zone-flattening `flat_map` of `InstancesPageIterator::next`: each zone
value must be a JSON object (`as_object().expect(...)`); `none` models the
panic, `some` the flat list of per-record decode results in zone order. -/
def flattenZones : List (String × Json) → Option (List (Except String Instance))
  | [] => some []
  | (_, v) :: rest =>
    match v.asObj with
    | none => none
    | some o => (flattenZones rest).map (fun rs => object_to_instance_list o ++ rs)

/-- The raw instance objects of a page's zone map, `none` when some zone value
is not an object (the traversal would panic there). -/
def pageRawRecords : List (String × Json) → Option (List Json)
  | [] => some []
  | (_, v) :: rest =>
    match v.asObj with
    | none => none
    | some o => (pageRawRecords rest).map (fun rs => zoneInstances o ++ rs)

/-- Predicate `Except.isOk` as used below. -/
def exOk {ε α : Type} : Except ε α → Bool
  | .ok _ => true
  | .error _ => false

/-- Outcome of the page-processing part of `InstancesPageIterator::next`
(everything after the HTTP request, lines 140–184 of `compute.rs`). -/
inductive PageOut where
  | panicked
  | noItems
  | parseError
  | pageOk (instance_list : List Instance) (next_token : Option String)

/-- Page handling of `InstancesPageIterator::next`: `items` must be an object
("No items in response" otherwise); zones are flattened (panicking on a
non-object zone value); decode failures set the `error` flag while decoding
continues; the flag turns the page into the single "Error parsing instances"
outcome; otherwise the decoded list and `nextPageToken` are produced. -/
def processPage (resp : Json) : PageOut :=
  match (resp.index "items").asObj with
  | none => .noItems
  | some json_response =>
    match flattenZones json_response with
    | none => .panicked
    | some results =>
      let error := results.any (fun r => !exOk r)
      let instance_list := results.filterMap Except.toOption
      if error then .parseError
      else .pageOk instance_list ((resp.index "nextPageToken").asStr)

/-- The mutable state of `InstancesPageIterator` (the traversal cursor; the
config and auth token are threaded separately as `project` and `fetch`). -/
structure InstancesPageIterator where
  page_token : Option String
  finished : Bool

/-- What one call to `Iterator::next` produced. -/
inductive StepOut where
  | stop
  | yield (r : Except String (List Instance))
  | panicked (msg : String)

/-- Model of `InstancesPageIterator::next`.  Returns the step outcome, the successor
state, and the list of URLs requested during the call (empty or a singleton) —
the last component instruments the single `self.config.client.get` call site.
Transport errors and the missing-`items` error return early *without* touching
`self.finished`; only the decode-aggregate error and the absent
`nextPageToken` set it. -/
def InstancesPageIterator.next (fetch : String → Except String Json)
    (project : String) (s : InstancesPageIterator) :
    StepOut × InstancesPageIterator × List String :=
  if s.finished then (.stop, s, [])
  else
    let url := mkUrl project s.page_token
    match fetch url with
    | .error e => (.yield (.error e), s, [url])
    | .ok resp =>
      match processPage resp with
      | .panicked =>
          (.panicked "Expected JSON object but got something else", s, [url])
      | .noItems => (.yield (.error "No items in response"), s, [url])
      | .parseError =>
          (.yield (.error "Error parsing instances"),
            { s with finished := true }, [url])
      | .pageOk instance_list next_token =>
        match next_token with
        | some token =>
            (.yield (.ok instance_list),
              { page_token := some token, finished := false }, [url])
        | none =>
            (.yield (.ok instance_list),
              { page_token := none, finished := true }, [url])

/-- Outcome of driving the iterator to completion. -/
inductive DriveOut where
  | ok (pages : List (List Instance))
  | err (e : String)
  | panicked (msg : String)
  | fuelOut

/-- Model of `iter.collect::<Result<Vec<_>, _>>()`: repeatedly call `next`; `Ok` pages
accumulate, the first `Err` short-circuits, `None` completes.  `fuel` bounds
the number of `next` calls (the Rust loop has no bound; every theorem below
holds for every sufficiently large fuel).  Also accumulates the requested
URLs. -/
def drive (fetch : String → Except String Json) (project : String) :
    Nat → InstancesPageIterator → DriveOut × List String
  | 0, _ => (.fuelOut, [])
  | Nat.succ n, s =>
    match InstancesPageIterator.next fetch project s with
    | (.stop, _, us) => (.ok [], us)
    | (.yield (.error e), _, us) => (.err e, us)
    | (.panicked m, _, us) => (.panicked m, us)
    | (.yield (.ok xs), s', us) =>
      match drive fetch project n s' with
      | (.ok rest, us') => (.ok (xs :: rest), us ++ us')
      | (.err e, us') => (.err e, us ++ us')
      | (.panicked m, us') => (.panicked m, us ++ us')
      | (.fuelOut, us') => (.fuelOut, us ++ us')

/-- Result type of `Compute::list_all_instances` with the panic and fuel
outcomes kept apart from the `Result` values. -/
inductive ListOut where
  | ok (instances : List Instance)
  | err (e : String)
  | panicked (msg : String)
  | fuelOut

/-- Model of `Compute::list_all_instances`: start the iterator with no page token,
collect, and flatten the vector of per-page vectors.  The auth-token fetch is
absorbed into `fetch` (the token is fetched once and reused unchanged on every
page, so it is a constant of the traversal). -/
def list_all_instances (fetch : String → Except String Json) (project : String)
    (fuel : Nat) : ListOut :=
  match drive fetch project fuel { page_token := none, finished := false } with
  | (.ok pages, _) => .ok pages.flatten
  | (.err e, _) => .err e
  | (.panicked m, _) => .panicked m
  | (.fuelOut, _) => .fuelOut

/-! ## The name-filtered listing (`src/compute/compute.rs`) -/

/-- UTF-8 bytes of one character (as `Nat`s below 256). -/
def utf8Bytes (c : Char) : List Nat :=
  let n := c.toNat
  if n < 0x80 then [n]
  else if n < 0x800 then [0xC0 + n / 0x40, 0x80 + n % 0x40]
  else if n < 0x10000 then
    [0xE0 + n / 0x1000, 0x80 + (n / 0x40) % 0x40, 0x80 + n % 0x40]
  else
    [0xF0 + n / 0x40000, 0x80 + (n / 0x1000) % 0x40,
      0x80 + (n / 0x40) % 0x40, 0x80 + n % 0x40]

/-- The bytes the `urlencoding` crate leaves unescaped:
ASCII alphanumerics and `-`, `.`, `_`, `~`. -/
def isUnreservedByte (b : Nat) : Bool :=
  (65 ≤ b && b ≤ 90) || (97 ≤ b && b ≤ 122) || (48 ≤ b && b ≤ 57) ||
    b = 45 || b = 46 || b = 95 || b = 126

/-- Uppercase hex digit of a nibble. -/
def hexDigit (n : Nat) : Char :=
  Char.ofNat (if n < 10 then 48 + n else 55 + n)

/-- Percent-encoding of one byte. -/
def encodeByte (b : Nat) : List Char :=
  if isUnreservedByte b then [Char.ofNat b]
  else ['%', hexDigit (b / 16), hexDigit (b % 16)]

/-- Model of `urlencoding::encode`: percent-encode every non-unreserved byte of the
UTF-8 form of the string, with uppercase hex. -/
def urlencode (s : String) : String :=
  String.mk ((s.toList.flatMap utf8Bytes).flatMap encodeByte)

/-- The filter expression built by `Compute::list_instances`:
`format!("(name eq .*{}.*)", instance_name)`. -/
def filterExpr (instance_name : String) : String :=
  "(name eq .*" ++ instance_name ++ ".*)"

/-- The request URL built by `Compute::list_instances`
(`compute/compute.rs` lines 45–50, identical in `compute/mod.rs`). -/
def list_instances_url (project instance_name : String) : String :=
  "https://compute.googleapis.com/compute/v1/projects/" ++ project ++
    "/aggregated/instances?filter=" ++ urlencode (filterExpr instance_name)

/-- The per-zone decode loop of `Compute::list_instances`:
`zone_data["instances"].as_array().unwrap()` (`none` models the `unwrap`
panic) followed by the record decode on every element.  The snapshot calls the
decoder `Instance::from_json`; its `records.rs` is not part of this snapshot,
so the decoder of `src/compute/records.rs` (`Instance::try_from`) stands in —
no claim below depends on its internals here. -/
def zonesDecodeStrict : List (String × Json) → Option (List (Except String Instance))
  | [] => some []
  | (_, zone_data) :: rest =>
    match (zone_data.index "instances").asArr with
    | none => none
    | some arr =>
      (zonesDecodeStrict rest).map (fun rs => arr.map Instance.try_from ++ rs)

/-- Result type of `Compute::list_instances`. -/
inductive FilteredOut where
  | ok (instances : List Instance)
  | err (e : String)
  | panicked (msg : String)

/-- Model of `Compute::list_instances` (`compute/compute.rs` lines 41–72): build the
filter URL, fetch once, require `items` to be an object, decode every zone's
instances, and `.flatten()` the `Result`s — keeping only the `Ok` records.
The name pattern is used in the URL only; the decode phase never sees it. -/
def list_instances (fetch : String → Except String Json)
    (project instance_name : String) : FilteredOut :=
  match fetch (list_instances_url project instance_name) with
  | .error e => .err e
  | .ok resp =>
    match (resp.index "items").asObj with
    | none => .err "No items in response"
    | some zones =>
      match zonesDecodeStrict zones with
      | none => .panicked "called Option::unwrap on a None value"
      | some results => .ok (results.filterMap Except.toOption)

/-! ## Page environments: chains of fetchable pages -/

/-- Model of `resp["nextPageToken"].as_str()`. -/
def nextTokenOf (page : Json) : Option String :=
  (page.index "nextPageToken").asStr

/-- A structurally processable page on which every raw record decodes:
`items` is an object, every zone value is an object, and `Instance::try_from`
succeeds on every flattened raw record. -/
def GoodPage (page : Json) : Prop :=
  ∃ zones raws, (page.index "items").asObj = some zones ∧
    pageRawRecords zones = some raws ∧
    ∀ r ∈ raws, exOk (Instance.try_from r) = true

/-- The successfully decoded records of a page, in zone-flattening order. -/
def decodedInstances (page : Json) : List Instance :=
  match (page.index "items").asObj with
  | none => []
  | some zones =>
    match pageRawRecords zones with
    | none => []
    | some raws => raws.filterMap (fun r => (Instance.try_from r).toOption)

/-- Predicate: `fetch` serves the given pages in order starting from cursor `tok`: each
page is returned for the URL of the current cursor, is fully decodable, and
chains to the next page through its `nextPageToken` — the last page carrying
none. -/
def ChainedFrom (fetch : String → Except String Json) (project : String) :
    Option String → List Json → Prop
  | _, [] => True
  | tok, page :: rest =>
    fetch (mkUrl project tok) = .ok page ∧ GoodPage page ∧
    (match rest with
     | [] => nextTokenOf page = none
     | _ :: _ => ∃ t, nextTokenOf page = some t ∧
         ChainedFrom fetch project (some t) rest)

/-- Predicate: `fetch` serves the pages `good` (each fully decodable and carrying a token
to the next) and then the page `bad` at the final cursor. -/
def ReachesPage (fetch : String → Except String Json) (project : String) :
    Option String → List Json → Json → Prop
  | tok, [], bad => fetch (mkUrl project tok) = .ok bad
  | tok, page :: rest, bad =>
    fetch (mkUrl project tok) = .ok page ∧ GoodPage page ∧
    ∃ t, nextTokenOf page = some t ∧ ReachesPage fetch project (some t) rest bad

theorem flattenZones_of_raw (zones : List (String × Json)) :
    ∀ raws, pageRawRecords zones = some raws →
      flattenZones zones = some (raws.map Instance.try_from) := by
  induction zones with
  | nil => intro raws h; simp [pageRawRecords] at h; simp [flattenZones, ← h]
  | cons zv rest ih =>
    intro raws h
    obtain ⟨_, v⟩ := zv
    simp only [pageRawRecords] at h
    rcases hv : v.asObj with _ | o
    · rw [hv] at h; exact absurd h (by simp)
    · rw [hv] at h
      rcases hr : pageRawRecords rest with _ | rs
      · rw [hr] at h; exact absurd h (by simp)
      · rw [hr] at h
        simp at h
        subst h
        simp [flattenZones, hv, ih rs hr, object_to_instance_list]

theorem processPage_of_goodPage (page : Json) (h : GoodPage page) :
    processPage page = .pageOk (decodedInstances page) (nextTokenOf page) := by
  obtain ⟨zones, raws, hi, hr, hok⟩ := h
  have hfz := flattenZones_of_raw zones raws hr
  have hany : (raws.map Instance.try_from).any (fun r => !exOk r) = false := by
    rw [List.any_eq_false]
    intro r hrm
    obtain ⟨r0, hr0, rfl⟩ := List.mem_map.mp hrm
    simp [hok r0 hr0]
  simp only [processPage, hi, hfz, hany, Bool.false_eq_true, if_false]
  simp [decodedInstances, hi, hr, nextTokenOf, List.filterMap_map]
  rfl

theorem next_finished (fetch : String → Except String Json) (project : String)
    (tok : Option String) :
    InstancesPageIterator.next fetch project ⟨tok, true⟩ = (.stop, ⟨tok, true⟩, []) :=
  rfl

theorem next_of_goodPage (fetch : String → Except String Json)
    (project : String) (tok : Option String) (page : Json)
    (hf : fetch (mkUrl project tok) = .ok page) (hg : GoodPage page) :
    InstancesPageIterator.next fetch project ⟨tok, false⟩ =
      (StepOut.yield (.ok (decodedInstances page)),
        ⟨nextTokenOf page, (nextTokenOf page).isNone⟩, [mkUrl project tok]) := by
  have hp := processPage_of_goodPage page hg
  simp only [InstancesPageIterator.next]
  rw [if_neg (by simp)]
  simp only [hf, hp]
  rcases nextTokenOf page with _ | t <;> rfl

theorem drive_chained (pages : List Json) :
    ∀ (fetch : String → Except String Json) (project : String)
      (tok : Option String) (fuel : Nat),
      ChainedFrom fetch project tok pages → pages ≠ [] →
      pages.length + 1 ≤ fuel →
      ∃ urls, drive fetch project fuel ⟨tok, false⟩ =
          (.ok (pages.map decodedInstances), urls) ∧
        urls.length = pages.length := by
  induction pages with
  | nil => intro _ _ _ _ _ hne _; exact absurd rfl hne
  | cons page rest ih =>
    intro fetch project tok fuel hch _ hfuel
    obtain ⟨hf, hg, htail⟩ := hch
    simp only [List.length_cons] at hfuel
    rcases fuel with _ | f
    · omega
    have hnext := next_of_goodPage fetch project tok page hf hg
    rcases rest with _ | ⟨r, rs⟩
    · -- last page: no continuation token
      have hnt : nextTokenOf page = none := htail
      rcases f with _ | f'
      · simp at hfuel
      refine ⟨[mkUrl project tok], ?_, rfl⟩
      simp only [drive, hnext, hnt, Option.isNone_none]
      simp [drive, next_finished]
    · -- inner page: token chains to the rest
      obtain ⟨t, hnt, hch'⟩ := htail
      obtain ⟨urls', hdrive', hlen'⟩ :=
        ih fetch project (some t) f hch' (by simp) (by simp at hfuel ⊢; omega)
      refine ⟨mkUrl project tok :: urls', ?_, by simp [hlen']⟩
      simp only [drive, hnext, hnt, Option.isNone_some]
      rw [hdrive']
      simp

theorem processPage_parseError (page : Json) (zones : List (String × Json))
    (raws : List Json) (hi : (page.index "items").asObj = some zones)
    (hr : pageRawRecords zones = some raws)
    (hbad : ∃ r ∈ raws, ∃ e, Instance.try_from r = .error e) :
    processPage page = .parseError := by
  have hfz := flattenZones_of_raw zones raws hr
  obtain ⟨r, hrm, e, he⟩ := hbad
  have hany : (raws.map Instance.try_from).any (fun r => !exOk r) = true := by
    rw [List.any_eq_true]
    exact ⟨Instance.try_from r, List.mem_map_of_mem _ hrm, by simp [he, exOk]⟩
  simp [processPage, hi, hfz, hany]

theorem next_parseError (fetch : String → Except String Json)
    (project : String) (tok : Option String) (bad : Json)
    (hf : fetch (mkUrl project tok) = .ok bad)
    (hp : processPage bad = .parseError) :
    InstancesPageIterator.next fetch project ⟨tok, false⟩ =
      (StepOut.yield (.error "Error parsing instances"),
        ⟨tok, true⟩, [mkUrl project tok]) := by
  simp only [InstancesPageIterator.next]
  rw [if_neg (by simp)]
  simp only [hf, hp]

theorem drive_reaches_bad (good : List Json) :
    ∀ (fetch : String → Except String Json) (project : String)
      (tok : Option String) (bad : Json) (fuel : Nat),
      ReachesPage fetch project tok good bad →
      processPage bad = .parseError →
      good.length + 1 ≤ fuel →
      ∃ urls, drive fetch project fuel ⟨tok, false⟩ =
          (.err "Error parsing instances", urls) ∧
        urls.length = good.length + 1 := by
  induction good with
  | nil =>
    intro fetch project tok bad fuel hreach hp hfuel
    rcases fuel with _ | f
    · omega
    refine ⟨[mkUrl project tok], ?_, rfl⟩
    simp only [drive, next_parseError fetch project tok bad hreach hp]
  | cons page rest ih =>
    intro fetch project tok bad fuel hreach hp hfuel
    obtain ⟨hf, hg, t, hnt, hreach'⟩ := hreach
    simp only [List.length_cons] at hfuel
    rcases fuel with _ | f
    · omega
    obtain ⟨urls', hdrive', hlen'⟩ :=
      ih fetch project (some t) bad f hreach' hp (by omega)
    refine ⟨mkUrl project tok :: urls', ?_, by simp [hlen']⟩
    simp only [drive, next_of_goodPage fetch project tok page hf hg, hnt,
      Option.isNone_some]
    rw [hdrive']
    simp

/-! ## Inversion lemmas for the record decoder -/

theorem try_from_eq_ok (j : Json)
    (name ip zoneUrl zone mtUrl machine_type cpu_platform status : String)
    (h1 : getStr j "name" = some name) (h2 : ipOf j = some ip)
    (h3 : getStr j "zone" = some zoneUrl)
    (h4 : (splitChar '/' zoneUrl).getLast? = some zone)
    (h5 : getStr j "machineType" = some mtUrl)
    (h6 : (splitChar '/' mtUrl).getLast? = some machine_type)
    (h7 : getStr j "cpuPlatform" = some cpu_platform)
    (h8 : getStr j "status" = some status) :
    Instance.try_from j = .ok
      { name, ip, zone, machine_type, cpu_platform, status,
        labels := labelsOf j,
        region := joinSep "-" ((splitChar '-' zone).take 2),
        cell := (labelsOf j).bind (fun l => List.lookup "cell" l) } := by
  simp only [Instance.try_from, h1, h2, h3, h4, h5, h6, h7, h8]

theorem try_from_ok_fields (j : Json) (i : Instance)
    (h : Instance.try_from j = .ok i) :
    (getStr j "name").isSome = true ∧ (ipOf j).isSome = true ∧
    (getStr j "zone").isSome = true ∧ (getStr j "machineType").isSome = true ∧
    (getStr j "cpuPlatform").isSome = true ∧ (getStr j "status").isSome = true := by
  unfold Instance.try_from at h
  repeat' split at h
  all_goals cases h
  refine ⟨by simp [*], by simp [*], by simp [*], by simp [*], by simp [*],
    by simp [*]⟩

/-! ## Claims about the record decoder (C5, C6, C8) -/

/-- Claim C5: for each required field among `name`, `networkInterfaces[0].networkIP`,
`zone`, `machineType`, `cpuPlatform` and `status`, and for every raw instance
JSON object, the field being absent or of the wrong JSON type (its string
extraction yielding `none`) makes `Instance::try_from` return an error rather
than an `Instance`. -/
theorem C5_missing_required_field_fails_decode (j : Json) :
    (getStr j "name" = none → ∃ e, Instance.try_from j = .error e) ∧
    (ipOf j = none → ∃ e, Instance.try_from j = .error e) ∧
    (getStr j "zone" = none → ∃ e, Instance.try_from j = .error e) ∧
    (getStr j "machineType" = none → ∃ e, Instance.try_from j = .error e) ∧
    (getStr j "cpuPlatform" = none → ∃ e, Instance.try_from j = .error e) ∧
    (getStr j "status" = none → ∃ e, Instance.try_from j = .error e) := by
  have herr : (∃ i, Instance.try_from j = .ok i) ∨
      (∃ e, Instance.try_from j = .error e) := by
    rcases h : Instance.try_from j with e | i
    · exact .inr ⟨e, rfl⟩
    · exact .inl ⟨i, rfl⟩
  refine ⟨?_, ?_, ?_, ?_, ?_, ?_⟩ <;> intro hnone <;>
    rcases herr with ⟨i, hok⟩ | he <;>
    first
      | exact he
      | (have hf := try_from_ok_fields j i hok; simp [hnone] at hf)

/-- An otherwise-valid raw instance object with no `status` field. -/
def jNoStatus : Json := .obj [
  ("name", .str "instance3"),
  ("networkInterfaces", .arr [.obj [("networkIP", .str "127.0.0.3")]]),
  ("zone", .str "zones/us-east1-b"),
  ("machineType", .str "machineTypes/n1-standard-1"),
  ("cpuPlatform", .str "Intel Haswell")]

/-- Witness for C5: the concrete object missing `status` fails to decode. -/
theorem C5_witness_missing_status :
    ∃ e, Instance.try_from jNoStatus = .error e :=
  (C5_missing_required_field_fails_decode jNoStatus).2.2.2.2.2 rfl

/-- Claim C6: for every decoded instance, the `zone` field is the trailing
`/`-separated segment of the source zone URL, and the `region` field is the
first two `-`-separated tokens of that short zone joined by `-`; for a short
zone splitting as `[a, b, c]` the region is `a ++ "-" ++ b`. -/
theorem C6_zone_region_derivation (j : Json) (inst : Instance) (z : String)
    (h : Instance.try_from j = .ok inst) (hz : getStr j "zone" = some z) :
    (splitChar '/' z).getLast? = some inst.zone ∧
    inst.region = joinSep "-" ((splitChar '-' inst.zone).take 2) ∧
    (∀ a b c, splitChar '-' inst.zone = [a, b, c] →
      inst.region = a ++ "-" ++ b) := by
  obtain ⟨f1, f2, f3, f4, f5, f6⟩ := try_from_ok_fields j inst h
  obtain ⟨n, h1⟩ := Option.isSome_iff_exists.mp f1
  obtain ⟨ip, h2⟩ := Option.isSome_iff_exists.mp f2
  obtain ⟨mtUrl, h5⟩ := Option.isSome_iff_exists.mp f4
  obtain ⟨cp, h7⟩ := Option.isSome_iff_exists.mp f5
  obtain ⟨st, h8⟩ := Option.isSome_iff_exists.mp f6
  obtain ⟨zone, hzl⟩ := splitChar_getLast?_isSome '/' z
  obtain ⟨mt, hml⟩ := splitChar_getLast?_isSome '/' mtUrl
  have hok := try_from_eq_ok j n ip z zone mtUrl mt cp st h1 h2 hz hzl h5 hml h7 h8
  rw [h] at hok
  injection hok with hinst
  subst hinst
  refine ⟨hzl, rfl, ?_⟩
  intro a b c habc
  simp only [habc]
  simp [joinSep]

/-- Scenario D of the spec: fully-qualified zone URL, no labels. -/
def jScenarioD : Json := .obj [
  ("name", .str "i1"),
  ("networkInterfaces", .arr [.obj [("networkIP", .str "10.0.0.1")]]),
  ("zone", .str "projects/123/zones/us-central1-a"),
  ("machineType", .str "zones/us-central1-a/machineTypes/n1-standard-1"),
  ("cpuPlatform", .str "Intel Haswell"),
  ("status", .str "RUNNING")]

/-- The record `jScenarioD` decodes to. -/
def instD : Instance :=
  { name := "i1", ip := "10.0.0.1", zone := "us-central1-a",
    machine_type := "n1-standard-1", cpu_platform := "Intel Haswell",
    status := "RUNNING", labels := none, region := "us-central1", cell := none }

/-- Witness for C6: the source zone URL `projects/123/zones/us-central1-a`
yields zone `us-central1-a` and region `us-central1`. -/
theorem C6_witness_scenario_d :
    Instance.try_from jScenarioD = .ok instD ∧
    instD.zone = "us-central1-a" ∧ instD.region = "us-central1" ∧
    (splitChar '/' "projects/123/zones/us-central1-a").getLast? = some instD.zone :=
  ⟨rfl, rfl, rfl,
    (C6_zone_region_derivation jScenarioD instD
      "projects/123/zones/us-central1-a" rfl rfl).1⟩

/-- Claim C8: for every raw instance object whose required fields extract
successfully: it decodes; absence of the `labels` key gives `labels = none`
and `cell = none`; a present `labels` object becomes string pairs with every
non-string value coerced to `""` (never a decode failure); and `cell` is the
`"cell"` entry of the coerced label map. -/
theorem C8_labels_optional_lenient (j : Json)
    (name ip zoneUrl mtUrl cpu_platform status : String)
    (h1 : getStr j "name" = some name) (h2 : ipOf j = some ip)
    (h3 : getStr j "zone" = some zoneUrl)
    (h5 : getStr j "machineType" = some mtUrl)
    (h7 : getStr j "cpuPlatform" = some cpu_platform)
    (h8 : getStr j "status" = some status) :
    ∃ inst, Instance.try_from j = .ok inst ∧
      inst.labels = ((j.get "labels").bind Json.asObj).map coerceLabels ∧
      inst.cell = inst.labels.bind (fun l => List.lookup "cell" l) ∧
      (j.get "labels" = none → inst.labels = none ∧ inst.cell = none) ∧
      (∀ o, (j.get "labels").bind Json.asObj = some o →
        inst.labels = some (o.map (fun kv => (kv.1, (Json.asStr kv.2).getD "")))) := by
  obtain ⟨zone, hzl⟩ := splitChar_getLast?_isSome '/' zoneUrl
  obtain ⟨mt, hml⟩ := splitChar_getLast?_isSome '/' mtUrl
  refine ⟨_, try_from_eq_ok j name ip zoneUrl zone mtUrl mt cpu_platform status
    h1 h2 h3 hzl h5 hml h7 h8, rfl, rfl, ?_, ?_⟩
  · intro hnone
    simp [labelsOf, hnone]
  · intro o ho
    simp [labelsOf, ho, coerceLabels]

/-- Witness for C8: the labels-free object `jScenarioD` decodes with
`labels = none` and `cell = none`. -/
theorem C8_witness_no_labels :
    ∃ inst, Instance.try_from jScenarioD = .ok inst ∧
      inst.labels = none ∧ inst.cell = none := by
  obtain ⟨inst, hok, _, _, hnone, _⟩ :=
    C8_labels_optional_lenient jScenarioD "i1" "10.0.0.1"
      "projects/123/zones/us-central1-a"
      "zones/us-central1-a/machineTypes/n1-standard-1" "Intel Haswell" "RUNNING"
      rfl rfl rfl rfl rfl rfl
  exact ⟨inst, hok, (hnone rfl).1, (hnone rfl).2⟩

/-! ## Claims about the page iterator interface (C7, C10, C2) -/

/-- The aggregated-instances endpoint of a project. -/
def aggregatedListUrl (project : String) : String :=
  "https://compute.googleapis.com/compute/v1/projects/" ++ project ++
    "/aggregated/instances"

/-- Claim C7: every page fetch of the traversal requests exactly one URL: the
aggregated-instances endpoint of the configured project; when the cursor holds
a continuation token `t` the URL carries `?pageToken=t`, and without a token
the URL is exactly the bare endpoint (the parameter is omitted). -/
theorem C7_page_fetch_url (fetch : String → Except String Json)
    (project : String) (s : InstancesPageIterator) (h : s.finished = false) :
    (InstancesPageIterator.next fetch project s).2.2 =
      [mkUrl project s.page_token] ∧
    (∀ t, s.page_token = some t →
      mkUrl project s.page_token = aggregatedListUrl project ++ "?pageToken=" ++ t) ∧
    (s.page_token = none →
      mkUrl project s.page_token = aggregatedListUrl project) := by
  obtain ⟨tok, fin⟩ := s
  simp only at h
  subst h
  refine ⟨?_, ?_, ?_⟩
  · simp only [InstancesPageIterator.next]
    rw [if_neg (by simp)]
    repeat' split
    all_goals rfl
  · intro t ht
    subst ht
    simp only [mkUrl, aggregatedListUrl, String.append_assoc]
    rfl
  · intro ht
    subst ht
    rfl

/-- A transport layer that always fails. -/
def errFetch : String → Except String Json := fun _ => .error "connection refused"

/-- Witness for C7: concrete URLs for the token-bearing and first fetch. -/
theorem C7_witness :
    (InstancesPageIterator.next errFetch "test-project" ⟨some "abc", false⟩).2.2 =
      ["https://compute.googleapis.com/compute/v1/projects/test-project/aggregated/instances?pageToken=abc"] ∧
    (InstancesPageIterator.next errFetch "test-project" ⟨none, false⟩).2.2 =
      ["https://compute.googleapis.com/compute/v1/projects/test-project/aggregated/instances"] := by
  have h1 := C7_page_fetch_url errFetch "test-project" ⟨some "abc", false⟩ rfl
  have h2 := C7_page_fetch_url errFetch "test-project" ⟨none, false⟩ rfl
  exact ⟨h1.1.trans rfl, h2.1.trans rfl⟩

/-- A page whose `items` object maps a zone key to a non-object value. -/
def jBadZoneValue : Json := .obj [
  ("items", .obj [("zones/us-east1-b", .str "not-an-object")])]

/-- Claim C10: a page whose `items` object maps a zone key to a value that is
not a JSON object makes `next()` panic (the `expect` on `as_object`) instead
of returning an error value: the traversal is not total over all JSON page
shapes. -/
theorem C10_nonobject_zone_value_panics :
    (InstancesPageIterator.next (fun _ => .ok jBadZoneValue) "test-project"
        ⟨none, false⟩).1 =
      .panicked "Expected JSON object but got something else" := rfl

/-- Claim C2, code-bug evidence: after `next()` yields a transport error, the
iterator state is unchanged — `finished` is still `false` — and the following
`next()` call fetches again and yields another error instead of returning no
further results.  This contradicts both the claim and `next()`'s own doc
comment ("If an error occurs, returns an error result wrapped in `Some` and
terminates the iteration by setting `finished` to `true`"): only the
decode-aggregate error path and pagination exhaustion set `finished`. -/
theorem C2_transport_error_is_not_terminal :
    (InstancesPageIterator.next errFetch "test-project" ⟨none, false⟩).1 =
      .yield (.error "connection refused") ∧
    (InstancesPageIterator.next errFetch "test-project" ⟨none, false⟩).2.1 =
      ⟨none, false⟩ ∧
    (InstancesPageIterator.next errFetch "test-project"
        (InstancesPageIterator.next errFetch "test-project" ⟨none, false⟩).2.1).1 =
      .yield (.error "connection refused") :=
  ⟨rfl, rfl, rfl⟩

/-! ## Claims about the whole traversal (C1, C3, C4) -/

/-- Claim C1: for every chained page environment in which the traversal reaches a
page holding at least one raw instance object that fails required-field
decoding, `list_all_instances` returns the single aggregate error
`"Error parsing instances"` — never a (partial) list. -/
theorem C1_decode_failure_yields_aggregate_error
    (fetch : String → Except String Json) (project : String)
    (good : List Json) (bad : Json) (zones : List (String × Json))
    (raws : List Json) (fuel : Nat)
    (hreach : ReachesPage fetch project none good bad)
    (hitems : (bad.index "items").asObj = some zones)
    (hraws : pageRawRecords zones = some raws)
    (hfail : ∃ r ∈ raws, ∃ e, Instance.try_from r = .error e)
    (hfuel : good.length + 1 ≤ fuel) :
    list_all_instances fetch project fuel = .err "Error parsing instances" := by
  have hp := processPage_parseError bad zones raws hitems hraws hfail
  obtain ⟨urls, hdrive, _⟩ :=
    drive_reaches_bad good fetch project none bad fuel hreach hp hfuel
  simp [list_all_instances, hdrive]

/-- A decodable raw record (instance1 of the repo's own test). -/
def jGood1 : Json := .obj [
  ("name", .str "instance1"),
  ("networkInterfaces", .arr [.obj [("networkIP", .str "127.0.0.1")]]),
  ("zone", .str "zone1"),
  ("machineType", .str "machine-type1"),
  ("cpuPlatform", .str "cpu-platform1"),
  ("status", .str "status1")]

/-- A second decodable raw record. -/
def jGood2 : Json := .obj [
  ("name", .str "instance2"),
  ("networkInterfaces", .arr [.obj [("networkIP", .str "127.0.0.2")]]),
  ("zone", .str "zone1"),
  ("machineType", .str "machine-type2"),
  ("cpuPlatform", .str "cpu-platform2"),
  ("status", .str "status2")]

/-- A single page carrying three raw instance objects of which exactly one
(the third) is missing `status`, and no continuation token. -/
def jPageMixed : Json := .obj [
  ("items", .obj [("zones/us-east1-b", .obj [
    ("instances", .arr [jGood1, jGood2, jNoStatus])])])]

/-- Witness for C1: on the three-record page with one record missing `status`,
the call returns the aggregate error, not a 2-element list. -/
theorem C1_witness_three_records_one_missing_status :
    list_all_instances (fun _ => .ok jPageMixed) "test-project" 5 =
      .err "Error parsing instances" ∧
    ∀ xs, list_all_instances (fun _ => .ok jPageMixed) "test-project" 5 ≠
      ListOut.ok xs := by
  have h := C1_decode_failure_yields_aggregate_error
    (fun _ => .ok jPageMixed) "test-project" [] jPageMixed
    [("zones/us-east1-b", .obj [("instances", .arr [jGood1, jGood2, jNoStatus])])]
    [jGood1, jGood2, jNoStatus] 5
    rfl rfl rfl
    ⟨jNoStatus, List.Mem.tail _ (List.Mem.tail _ (List.Mem.head _)),
      "Missing or invalid 'status' field", rfl⟩
    (by simp)
  exact ⟨h, fun xs hxs => by rw [h] at hxs; cases hxs⟩

/-- The page of `jNoStatus` with a continuation token pointing further. -/
def jPageBadWithToken : Json := .obj [
  ("items", .obj [("zones/z1", .obj [("instances", .arr [jNoStatus])])]),
  ("nextPageToken", .str "t2")]

/-- A fully decodable follow-up page. -/
def jPageAfter : Json := .obj [
  ("items", .obj [("zones/z2", .obj [("instances", .arr [jGood1])])])]

/-- An environment in which the page after the failing one is fetchable. -/
def fetchC3 : String → Except String Json := fun u =>
  if u = mkUrl "test-project" none then .ok jPageBadWithToken
  else if u = mkUrl "test-project" (some "t2") then .ok jPageAfter
  else .error "unexpected URL"

/-- Claim C3, counterexample: the claim says the traversal keeps fetching the
remaining pages after a decode failure before raising the batched error.  In
this concrete environment page 1 has one undecodable record and a
continuation token `t2`, and the page behind `t2` is fetchable — yet the run
ends with the aggregate error after requesting only the first URL: the second
page is never fetched. -/
theorem C3_counterexample_no_fetch_after_error_page :
    drive fetchC3 "test-project" 5 ⟨none, false⟩ =
      (.err "Error parsing instances", [mkUrl "test-project" none]) ∧
    fetchC3 (mkUrl "test-project" (some "t2")) = .ok jPageAfter :=
  ⟨rfl, rfl⟩

/-- Claim C3 as amended: per-record decode errors are not surfaced individually:
the traversal flags the page and raises the single batched error
`"Error parsing instances"` at the end of that page — but it stops there; the
failing page is the last fetch, and subsequent pages are not requested even
when a continuation token is present. -/
theorem C3_error_page_ends_traversal_without_further_fetches
    (fetch : String → Except String Json) (project : String)
    (good : List Json) (bad : Json) (zones : List (String × Json))
    (raws : List Json) (fuel : Nat)
    (hreach : ReachesPage fetch project none good bad)
    (hitems : (bad.index "items").asObj = some zones)
    (hraws : pageRawRecords zones = some raws)
    (hfail : ∃ r ∈ raws, ∃ e, Instance.try_from r = .error e)
    (hfuel : good.length + 1 ≤ fuel) :
    (drive fetch project fuel ⟨none, false⟩).1 = .err "Error parsing instances" ∧
    (drive fetch project fuel ⟨none, false⟩).2.length = good.length + 1 := by
  have hp := processPage_parseError bad zones raws hitems hraws hfail
  obtain ⟨urls, hdrive, hlen⟩ :=
    drive_reaches_bad good fetch project none bad fuel hreach hp hfuel
  rw [hdrive]
  exact ⟨rfl, hlen⟩

/-- Witness for the amended C3 at the `fetchC3` environment: one fetch, then
the aggregate error. -/
theorem C3_witness_one_fetch :
    (drive fetchC3 "test-project" 5 ⟨none, false⟩).1 =
      .err "Error parsing instances" ∧
    (drive fetchC3 "test-project" 5 ⟨none, false⟩).2.length = 1 := by
  have h := C3_error_page_ends_traversal_without_further_fetches
    fetchC3 "test-project" [] jPageBadWithToken
    [("zones/z1", .obj [("instances", .arr [jNoStatus])])] [jNoStatus] 5
    rfl rfl rfl
    ⟨jNoStatus, List.Mem.head _, "Missing or invalid 'status' field", rfl⟩
    (by simp)
  exact h

/-- Claim C4: for every nonempty chained sequence of fully decodable pages whose
last page carries no `nextPageToken`, the traversal performs exactly as many
fetches as there are pages and terminates, and `list_all_instances` returns
all decoded instances of all pages in page order, each page's instances in
its zone-flattening order. -/
theorem C4_pagination_terminates_in_page_order
    (fetch : String → Except String Json) (project : String)
    (pages : List Json) (fuel : Nat) (hne : pages ≠ [])
    (hch : ChainedFrom fetch project none pages)
    (hfuel : pages.length + 1 ≤ fuel) :
    list_all_instances fetch project fuel =
      .ok ((pages.map decodedInstances).flatten) ∧
    (drive fetch project fuel ⟨none, false⟩).2.length = pages.length := by
  obtain ⟨urls, hdrive, hlen⟩ :=
    drive_chained pages fetch project none fuel hch hne hfuel
  exact ⟨by simp [list_all_instances, hdrive], by rw [hdrive]; exact hlen⟩

/-- Scenario B, page 1: one instance and `nextPageToken = "abc"`. -/
def jPageB1 : Json := .obj [
  ("items", .obj [("zones/z1", .obj [("instances", .arr [jGood1])])]),
  ("nextPageToken", .str "abc")]

/-- Scenario B, page 2: one instance and no token. -/
def jPageB2 : Json := .obj [
  ("items", .obj [("zones/z2", .obj [("instances", .arr [jGood2])])])]

/-- Scenario B environment: page 2 served only for `pageToken=abc`. -/
def fetchB : String → Except String Json := fun u =>
  if u = mkUrl "test-project" none then .ok jPageB1
  else if u = mkUrl "test-project" (some "abc") then .ok jPageB2
  else .error "unexpected URL"

/-- Witness for C4 (Scenario B): two pages chained by `pageToken=abc` give
exactly two fetches and the two instances in page order. -/
theorem C4_witness_scenario_b :
    list_all_instances fetchB "test-project" 5 =
      .ok (([jPageB1, jPageB2].map decodedInstances).flatten) ∧
    (drive fetchB "test-project" 5 ⟨none, false⟩).2.length = 2 ∧
    ([jPageB1, jPageB2].map decodedInstances).flatten = [
      { name := "instance1", ip := "127.0.0.1", zone := "zone1",
        machine_type := "machine-type1", cpu_platform := "cpu-platform1",
        status := "status1", labels := none, region := "zone1", cell := none },
      { name := "instance2", ip := "127.0.0.2", zone := "zone1",
        machine_type := "machine-type2", cpu_platform := "cpu-platform2",
        status := "status2", labels := none, region := "zone1", cell := none }] := by
  have hg1 : GoodPage jPageB1 :=
    ⟨[("zones/z1", .obj [("instances", .arr [jGood1])])], [jGood1], rfl, rfl,
      by intro r hr; simp at hr; subst hr; rfl⟩
  have hg2 : GoodPage jPageB2 :=
    ⟨[("zones/z2", .obj [("instances", .arr [jGood2])])], [jGood2], rfl, rfl,
      by intro r hr; simp at hr; subst hr; rfl⟩
  have hch : ChainedFrom fetchB "test-project" none [jPageB1, jPageB2] :=
    ⟨rfl, hg1, "abc", rfl, rfl, hg2, rfl⟩
  have h := C4_pagination_terminates_in_page_order fetchB "test-project"
    [jPageB1, jPageB2] 5 (by simp) hch (by simp)
  exact ⟨h.1, h.2, rfl⟩

/-! ## The server-side name filter (C9) -/

/-- Claim C9: the name-pattern listing applies the pattern server-side: the
request URL is the aggregated-instances endpoint of the project with
`filter` set to the URL-encoding of `(name eq .*pattern.*)`, and the result
depends on the pattern only through that URL — identical responses give
identical results for any two patterns, i.e. no client-side filtering of the
decoded records takes place. -/
theorem C9_server_side_name_filter (project instance_name : String) :
    list_instances_url project instance_name =
      aggregatedListUrl project ++ "?filter=" ++
        urlencode ("(name eq .*" ++ instance_name ++ ".*)") ∧
    (∀ (f1 f2 : String → Except String Json) (pat2 : String),
      f1 (list_instances_url project instance_name) =
        f2 (list_instances_url project pat2) →
      list_instances f1 project instance_name = list_instances f2 project pat2) := by
  constructor
  · simp only [list_instances_url, aggregatedListUrl, filterExpr,
      String.append_assoc]
    rfl
  · intro f1 f2 pat2 h
    simp only [list_instances, h]

/-- Witness for C9: the concrete filter URL for pattern `web`, and response
equality forcing result equality across the patterns `web` and `db`. -/
theorem C9_witness :
    list_instances_url "p" "web" =
      "https://compute.googleapis.com/compute/v1/projects/p/aggregated/instances?filter=%28name%20eq%20.%2Aweb.%2A%29" ∧
    list_instances (fun _ => .ok jPageAfter) "p" "web" =
      list_instances (fun _ => .ok jPageAfter) "p" "db" := by
  have h := C9_server_side_name_filter "p" "web"
  exact ⟨h.1.trans rfl, h.2 (fun _ => .ok jPageAfter) (fun _ => .ok jPageAfter) "db" rfl⟩

end Bcls
